import Mathlib

/-!
Verification development for the documentation-to-rules compiler
(markdownParser / configParser / fileHandler / ruleGenerator /
ruleCleanupHandler). Each JavaScript function that the claims touch is
embedded as a computable Lean definition; JavaScript value conventions
(null or undefined modelled as `none`, string falsiness of the empty
string, `||` and `??` chains) are made explicit.
-/

/-- The single-quote character, used when rendering subsection markers. -/
def squote : Char := Char.ofNat 39

/-- The closing delimiter of an inline HTML comment. -/
def arrowClose : String := "-->"

/-- Whitespace test matching the JavaScript `\s` class for the characters
that can realistically occur in one line of a document. -/
def jsIsSpace (c : Char) : Bool :=
  c = ' ' ∨ c = '\t' ∨ c = '\n' ∨ c = '\r' ∨ c = '\x0b' ∨ c = '\x0c'

/-- JavaScript `String.prototype.trim` on a list of characters. -/
def trimChars (l : List Char) : List Char :=
  ((l.dropWhile jsIsSpace).reverse.dropWhile jsIsSpace).reverse

/-- JavaScript `String.prototype.trim`. -/
def jsTrim (s : String) : String := String.mk (trimChars s.data)

/-- First index at which `pat` occurs as a substring of `hay`
(JavaScript `indexOf`, with `none` in place of `-1`). -/
def listIndexOf (hay pat : List Char) : Option Nat :=
  if pat.isPrefixOf hay then some 0
  else
    match hay with
    | [] => none
    | _ :: t => (listIndexOf t pat).map (· + 1)

/-- JavaScript `String.prototype.indexOf`, `none` in place of `-1`. -/
def strIndexOf (hay pat : String) : Option Nat := listIndexOf hay.data pat.data

/-- JavaScript `String.prototype.substring(0, n)`. -/
def strTake (s : String) (n : Nat) : String := String.mk (s.data.take n)

/-- JavaScript `String.prototype.lastIndexOf` for a single character. -/
def strLastIndexOfChar (s : String) (c : Char) : Option Nat :=
  (listIndexOf s.data.reverse [c]).map (fun i => s.data.length - 1 - i)

/-- JavaScript `String.prototype.toLowerCase` (ASCII range, which is all
the source ever feeds it). -/
def jsToLower (s : String) : String := String.mk (s.data.map Char.toLower)

/-- Truthiness of a JavaScript string-or-nullish value: `null`,
`undefined` and the empty string are falsy. -/
def truthyS : Option String → Bool
  | none => false
  | some s => s ≠ ""

/-- JavaScript `a || b` on string-or-nullish values. -/
def jsOrS (a b : Option String) : Option String := if truthyS a then a else b

/-- JavaScript `a || b` where `a` is an array-or-nullish value: every
array, including the empty one, is truthy. -/
def jsOrA (a b : Option (List String)) : Option (List String) :=
  match a with
  | some x => some x
  | none => b

/--
One `ai-rules` configuration object, exactly the shape handled by
`configParser.js`. `none` stands for a JavaScript `null` or `undefined`
field. The literal `{}` (a section that never saw an annotation) is
`emptyCfg`; `parseConfigAttributes` always fills `unifySubsections`
with `some _` because the source initializes that key to `false`.
-/
structure CfgObj where
  type : Option String
  path : Option String
  globs : Option String
  description : Option String
  projectTypes : Option (List String)
  unifySubsections : Option Bool
deriving Repr, DecidableEq

/-- The empty JavaScript object `{}` viewed as a configuration record. -/
def emptyCfg : CfgObj :=
  { type := none, path := none, globs := none, description := none,
    projectTypes := none, unifySubsections := none }

/-- Drop the literal string `pat` from the front of `l`, or fail. -/
def dropLit (pat : String) (l : List Char) : Option (List Char) :=
  if pat.data.isPrefixOf l then some (l.drop pat.data.length) else none

/--
Scanner for one `key="value"` attribute, the regex `key="([^"]+)"`:
at each starting position try the literal `key="`, then one or more
non-quote characters, then the closing quote; on failure advance one
character, exactly as the regex engine does.
-/
def scanKeyDQ (key : String) : List Char → Option String
  | [] => none
  | c :: t =>
    match dropLit (key ++ "=\"") (c :: t) with
    | some rest =>
      let cap := rest.takeWhile (· ≠ '"')
      if cap ≠ [] ∧ rest.drop cap.length ≠ [] then some (String.mk cap)
      else scanKeyDQ key t
    | none => scanKeyDQ key t

/--
Scanner for the regex `projectTypes='(\[[^\]]+\])'`: the capture is a
bracketed run with no closing bracket inside, followed by the closing
single quote.
-/
def scanProjectTypes : List Char → Option String
  | [] => none
  | c :: t =>
    match dropLit ("projectTypes=" ++ String.mk [squote, '[']) (c :: t) with
    | some rest =>
      let cap := rest.takeWhile (· ≠ ']')
      if cap ≠ [] ∧ (String.mk [']', squote]).data.isPrefixOf (rest.drop cap.length)
      then some ("[" ++ String.mk cap ++ "]")
      else scanProjectTypes t
    | none => scanProjectTypes t

/-- Read one JSON string body up to the closing quote (no escape
sequences, which the capture shape already rules out for sane inputs). -/
def readJString : List Char → List Char → Option (String × List Char)
  | [], _ => none
  | c :: rest, acc =>
    if c = '"' then some (String.mk acc.reverse, rest)
    else readJString rest (c :: acc)

/-- Parse the comma-separated tail of a JSON array of strings. -/
def readJArrayTail (fuel : Nat) (l : List Char) (acc : List String) :
    Option (List String) :=
  match fuel with
  | 0 => none
  | fuel + 1 =>
    match l.dropWhile jsIsSpace with
    | '"' :: rest =>
      match readJString rest [] with
      | none => none
      | some (s, rest2) =>
        match rest2.dropWhile jsIsSpace with
        | ',' :: rest3 => readJArrayTail fuel rest3 (s :: acc)
        | ']' :: rest3 =>
          if rest3.dropWhile jsIsSpace = [] then some (acc.reverse ++ [s]) else none
        | _ => none
    | _ => none

/-- `JSON.parse` restricted to arrays of strings, the only JSON shape the
source ever parses; any other input yields `none` (a warning in the
source, after which the field stays unset). -/
def parseJsonStrArray (s : String) : Option (List String) :=
  match s.data.dropWhile jsIsSpace with
  | '[' :: rest =>
    match rest.dropWhile jsIsSpace with
    | ']' :: rest2 => if rest2.dropWhile jsIsSpace = [] then some [] else none
    | _ => readJArrayTail (s.length + 1) rest []
  | _ => none

/--
`ConfigParser.parseConfigAttributes`: extract the independent
`key="value"` attributes from the inside of one `ai-rules` comment.
The returned record always carries every key: string keys default to
`null` (`none` here) and `unifySubsections` defaults to `false`, exactly
as the source initializes its `config` literal.
-/
def parseConfigAttributes (configStr : String) : CfgObj :=
  let cs := configStr.data
  let pt :=
    match scanProjectTypes cs with
    | some raw => parseJsonStrArray raw
    | none => none
  { type := scanKeyDQ "type" cs,
    path := scanKeyDQ "path" cs,
    globs := scanKeyDQ "globs" cs,
    description := scanKeyDQ "description" cs,
    projectTypes := pt,
    unifySubsections := some
      (match scanKeyDQ "unifySubsections" cs with
       | some v => jsToLower v = "true"
       | none => false) }

/-- Lower-case ASCII letters and digits, the class kept by `formatTitle`. -/
def isLowerAlnum (c : Char) : Bool :=
  ('a' ≤ c ∧ c ≤ 'z') ∨ ('0' ≤ c ∧ c ≤ '9')

/-- Worker for `collapseNonAlnum`: the flag records whether the previous
character belonged to a non-alphanumeric run already replaced by `_`. -/
def collapseGo : Bool → List Char → List Char
  | _, [] => []
  | inSep, c :: rest =>
    if isLowerAlnum c then c :: collapseGo false rest
    else if inSep then collapseGo true rest
    else '_' :: collapseGo true rest

/-- Replace every maximal run of characters outside `[a-z0-9]` with one
underscore (the regex `[^a-z0-9]+` replaced globally by `_`). -/
def collapseNonAlnum (l : List Char) : List Char := collapseGo false l

/-- Strip leading and trailing underscores (the regex `^_+|_+$`). -/
def trimUnderscores (l : List Char) : List Char :=
  ((l.dropWhile (· = '_')).reverse.dropWhile (· = '_')).reverse

/-- `ConfigParser.formatTitle`: lower-case, collapse non-alphanumeric
runs to `_`, trim leading and trailing underscores. -/
def formatTitle (title : String) : String :=
  String.mk (trimUnderscores (collapseNonAlnum (title.data.map Char.toLower)))

/--
The corpus-level configuration object consumed by the resolver and the
renderer (`DEFAULT_CONFIG` merged with the user YAML configuration).
-/
structure GenConfig where
  defaultRuleType : Option String
  defaultRulePath : Option String
  basePath : Option String
  defaultProjectTypes : Option (List String)
  createTableOfContents : Bool
deriving Repr, DecidableEq

/-- The `DEFAULT_CONFIG` literal of `ruleGenerator.js`, restricted to the
fields the compiler core reads. -/
def defaultGenConfig : GenConfig :=
  { defaultRuleType := some "agent_requested",
    defaultRulePath := some "",
    basePath := some "",
    defaultProjectTypes := some ["general"],
    createTableOfContents := true }

/-- `parentConfig?.field` for an optional parent object. -/
def optField (p : Option CfgObj) (f : CfgObj → Option String) : Option String :=
  match p with
  | some cfg => f cfg
  | none => none

/--
`ConfigParser.calculateEffectiveConfig` on the configuration record of a
section (`section.config`), the resolved parent configuration and the
corpus defaults. Field chains use `||` (so `null`, `undefined` and `""`
all fall through), except `unifySubsections` which uses `??` (only
`null` or `undefined` fall through, a present `false` does not).
`globs` is inherited from the parent only when the section declares
neither `globs` nor `description`; `description` is never inherited.
-/
def calculateEffectiveConfig (sectionConfig : CfgObj) (parentConfig : Option CfgObj)
    (defaultConfig : GenConfig) : CfgObj :=
  let effectiveGlobs0 := jsOrS sectionConfig.globs none
  let effectiveDescription := jsOrS sectionConfig.description none
  let effectiveGlobs :=
    if truthyS effectiveGlobs0 = false ∧ truthyS effectiveDescription = false then
      jsOrS (optField parentConfig (·.globs)) none
    else effectiveGlobs0
  { type := jsOrS sectionConfig.type
      (jsOrS (optField parentConfig (·.type)) defaultConfig.defaultRuleType),
    path := jsOrS sectionConfig.path
      (jsOrS (optField parentConfig (·.path)) defaultConfig.defaultRulePath),
    globs := effectiveGlobs,
    description := effectiveDescription,
    projectTypes := jsOrA sectionConfig.projectTypes
      (jsOrA (match parentConfig with | some p => p.projectTypes | none => none)
        defaultConfig.defaultProjectTypes),
    unifySubsections := some
      (match sectionConfig.unifySubsections with
       | some b => b
       | none =>
         match (match parentConfig with | some p => p.unifySubsections | none => none) with
         | some b => b
         | none => false) }

/--
One section node of the parsed tree (`{config, content, sections}` in
`MarkdownParser.extractSections`); children are an insertion-ordered
association list, matching JavaScript object key order.
-/
inductive SectionNode where
  | mk (config : CfgObj) (content : List String) (sections : List (String × SectionNode))
deriving Repr

/-- The `config` field of a node. -/
def SectionNode.config : SectionNode → CfgObj
  | .mk c _ _ => c

/-- The `content` field of a node. -/
def SectionNode.content : SectionNode → List String
  | .mk _ c _ => c

/-- The `sections` field of a node (its children). -/
def SectionNode.sections : SectionNode → List (String × SectionNode)
  | .mk _ _ s => s

/-- Read a key of a JavaScript object modelled as an association list. -/
def lookupKey (l : List (String × SectionNode)) (k : String) : Option SectionNode :=
  match l with
  | [] => none
  | (k', v) :: rest => if k' = k then some v else lookupKey rest k

/-- Assign a key of a JavaScript object: an existing key keeps its
position and is overwritten, a new key is appended. -/
def setKey (l : List (String × SectionNode)) (k : String) (v : SectionNode) :
    List (String × SectionNode) :=
  match l with
  | [] => [(k, v)]
  | (k', v') :: rest => if k' = k then (k, v) :: rest else (k', v') :: setKey rest k v

/-- Mutate the value under an existing key in place (the source only ever
does this on keys that exist; a missing key is left untouched). -/
def modifyKey (l : List (String × SectionNode)) (k : String) (f : SectionNode → SectionNode) :
    List (String × SectionNode) :=
  match l with
  | [] => []
  | (k', v) :: rest => if k' = k then (k', f v) :: rest else (k', v) :: modifyKey rest k f

/-- Mutate the node reached by following `path` through the `sections`
maps, mirroring the navigation loops of `extractSections`. -/
def updateAt (secs : List (String × SectionNode)) (path : List String)
    (f : SectionNode → SectionNode) : List (String × SectionNode) :=
  match path with
  | [] => secs
  | [t] => modifyKey secs t f
  | t :: rest =>
    modifyKey secs t (fun sec => .mk sec.config sec.content (updateAt sec.sections rest f))

/-- Create `title` as a fresh node (empty content, empty children, the
given raw config) under the parent reached by `parentPath`. -/
def createAt (secs : List (String × SectionNode)) (parentPath : List String)
    (title : String) (cfg : CfgObj) : List (String × SectionNode) :=
  match parentPath with
  | [] => setKey secs title (.mk cfg [] [])
  | t :: rest =>
    modifyKey secs t (fun sec => .mk sec.config sec.content (createAt sec.sections rest title cfg))

/-- Truthiness of `section.config.unifySubsections` as the walk loops in
`extractSections` test it. -/
def unifyTruthy (sec : SectionNode) : Bool :=
  match sec.config.unifySubsections with
  | some b => b
  | none => false

/--
The ancestor walk shared by the heading and content branches of
`extractSections`: descend along all but the last element of `path`
(`for i < currentPath.length - 1`) and return the path of the first node
whose raw config has a truthy `unifySubsections`, if any.
-/
def findUnifyAncestor (secs : List (String × SectionNode)) :
    List String → Option (List String)
  | [] => none
  | [_] => none
  | t :: rest =>
    match lookupKey secs t with
    | none => none
    | some sec =>
      if unifyTruthy sec then some [t]
      else
        match sec with
        | .mk _ _ subs =>
          match findUnifyAncestor subs rest with
          | some p => some (t :: p)
          | none => none

/--
The regex `^(#+)\s+(.+)`: a run of `#` markers, at least one whitespace
character, then the heading title, which is the rest of the line when
non-empty and otherwise (after regex backtracking) the last whitespace
character when at least two were consumed.
-/
def parseHeadingLine (line : String) : Option (Nat × String) :=
  let cs := line.data
  let hs := cs.takeWhile (· = '#')
  if hs = [] then none
  else
    let rest := cs.drop hs.length
    let ws := rest.takeWhile jsIsSpace
    if ws = [] then none
    else
      let r2 := rest.drop ws.length
      if r2 ≠ [] then some (hs.length, String.mk r2)
      else if ws.length ≥ 2 then some (hs.length, String.mk [ws.getLastD ' '])
      else none

/--
The lazy capture `([^>]*?)-->`: the shortest `>`-free prefix that is
immediately followed by the literal `-->`.
-/
def captureToArrow : List Char → Option (List Char)
  | '-' :: '-' :: '>' :: _ => some []
  | '>' :: _ => none
  | [] => none
  | c :: rest => (captureToArrow rest).map (c :: ·)

/-- Try the regex `<!--\s*ai-rules([^>]*?)-->` anchored at the front of
`l`, returning the capture group. -/
def matchAiRulesAt (l : List Char) : Option String :=
  match dropLit "<!--" l with
  | none => none
  | some r1 =>
    match dropLit "ai-rules" (r1.dropWhile jsIsSpace) with
    | none => none
    | some r2 => (captureToArrow r2).map String.mk

/-- Search the regex `<!--\s*ai-rules([^>]*?)-->` anywhere in the line
(JavaScript `line.match`), leftmost occurrence first. -/
def findAiRulesList : List Char → Option String
  | [] => none
  | c :: t =>
    match matchAiRulesAt (c :: t) with
    | some cap => some cap
    | none => findAiRulesList t

/-- The `ai-rules` comment matcher applied to one line. -/
def findAiRulesStr (line : String) : Option String := findAiRulesList line.data

/--
The mutable state threaded through the line loop of
`MarkdownParser.extractSections`.
-/
structure PState where
  sections : List (String × SectionNode)
  currentPath : List String
  currentConfig : CfgObj
  suppressConfigUntilLevel : Option Nat

/-- The state at the top of `extractSections`. -/
def initPState : PState :=
  { sections := [], currentPath := [], currentConfig := emptyCfg,
    suppressConfigUntilLevel := none }

/--
JavaScript `{...sec.config, ...newConfig}` as `extractSections` merges a
freshly parsed annotation into an open node. `newConfig` always comes
from `parseConfigAttributes`, which initializes every key of its record
(null placeholders for undeclared string keys, `false` for
`unifySubsections`), so the spread copies every key of `newConfig` and
the previous record contributes nothing.
-/
def spreadMerge (_old newConfig : CfgObj) : CfgObj :=
  { type := newConfig.type, path := newConfig.path, globs := newConfig.globs,
    description := newConfig.description, projectTypes := newConfig.projectTypes,
    unifySubsections := newConfig.unifySubsections }

/--
The body of the `forEach` line loop of `MarkdownParser.extractSections`:
annotation lines merge into the innermost open node (or are buffered, or
discarded under flatten suppression), heading lines pop the path and
either open a node or are absorbed by a unifying ancestor, and other
non-blank lines are appended to the innermost open node or to its first
unifying ancestor.
-/
def processLine (st : PState) (line : String) : PState :=
  match findAiRulesStr line with
  | some cap =>
    if st.suppressConfigUntilLevel.isSome then st
    else
      let newConfig := parseConfigAttributes cap
      if st.currentPath ≠ [] then
        let secs := updateAt st.sections st.currentPath
          (fun sec => .mk (spreadMerge sec.config newConfig) sec.content sec.sections)
        { st with sections := secs }
      else { st with currentConfig := newConfig }
  | none =>
    match parseHeadingLine line with
    | some (level, title) =>
      let suppress0 :=
        match st.suppressConfigUntilLevel with
        | some d => if level ≤ d then none else some d
        | none => none
      let path1 := st.currentPath.take (level - 1)
      let newPath := path1 ++ [title]
      match findUnifyAncestor st.sections newPath with
      | some ancPath =>
        let secs := updateAt st.sections ancPath
          (fun sec => .mk sec.config (sec.content ++ ["", line]) sec.sections)
        { sections := secs,
          currentPath := path1,
          currentConfig := st.currentConfig,
          suppressConfigUntilLevel := some level }
      | none =>
        { sections := createAt st.sections path1 title st.currentConfig,
          currentPath := newPath,
          currentConfig := emptyCfg,
          suppressConfigUntilLevel := suppress0 }
    | none =>
      if st.currentPath ≠ [] ∧ jsTrim line ≠ "" then
        match findUnifyAncestor st.sections st.currentPath with
        | some ancPath =>
          let secs := updateAt st.sections ancPath
            (fun sec => .mk sec.config (sec.content ++ [line]) sec.sections)
          { st with sections := secs }
        | none =>
          let secs := updateAt st.sections st.currentPath
            (fun sec => .mk sec.config (sec.content ++ [line]) sec.sections)
          { st with sections := secs }
      else st

/-- `MarkdownParser.extractSections` on an explicit list of lines. -/
def extractSectionsLines (lines : List String) : List (String × SectionNode) :=
  (lines.foldl processLine initPState).sections

/-- `MarkdownParser.extractSections`: split on newlines and fold. -/
def extractSections (content : String) : List (String × SectionNode) :=
  extractSectionsLines (content.splitOn "\n")

/--
The name index built by `RuleGenerator.collectSectionNames`:
a JavaScript object mapping a formatted section name to every
hierarchical ancestor path (original titles, root down to but excluding
the node) at which the name occurs.
-/
def NameIndex : Type := List (String × List (List String))

/-- Read a key of the name index (`sectionNames[formattedName]`). -/
def lookupIndex (idx : NameIndex) (k : String) : Option (List (List String)) :=
  match idx with
  | [] => none
  | (k', v) :: rest => if k' = k then some v else lookupIndex rest k

/-- `this.sectionNames[name].push(path)` with on-demand initialization of
the key, preserving JavaScript object key insertion order. -/
def indexPush (idx : NameIndex) (k : String) (p : List String) : NameIndex :=
  match idx with
  | [] => [(k, [p])]
  | (k', v) :: rest => if k' = k then (k', v ++ [p]) :: rest else (k', v) :: indexPush rest k p

/-- `RuleGenerator.collectSectionNames`: record the formatted title of
every node together with its ancestor path, then recurse with the
original (unformatted) title appended to the path. -/
def collectSectionNames : List (String × SectionNode) → List String → NameIndex → NameIndex
  | [], _, idx => idx
  | (title, .mk _ _ subs) :: rest, currentPath, idx =>
    let idx1 := indexPush idx (formatTitle title) currentPath
    let idx2 := collectSectionNames subs (currentPath ++ [title]) idx1
    collectSectionNames rest currentPath idx2

/-- The `name + (description ? ": description" : "")` display name used by
`FileHandler.generateDescription`. -/
def nameWithDescOf (name : String) (description : Option String) : String :=
  name ++ (if truthyS description then ": " ++ (description.getD "") else "")

/--
The unique-parent-path extraction inside `FileHandler.generateDescription`:
truncate the parent breadcrumb right after the first occurrence of
`" > <parentName>"` when present, otherwise keep the whole breadcrumb.
An empty section path makes `parentName` the string coercion of
JavaScript `undefined`.
-/
def parentUniquePathOf (parentDescription : String) (sectionPath : List String) : String :=
  let parentName := sectionPath.getLastD "undefined"
  let searchText := " > " ++ parentName
  match strIndexOf parentDescription searchText with
  | some i => strTake parentDescription (i + searchText.length)
  | none => parentDescription

/--
`FileHandler.generateDescription`: a name whose formatted form has at
most one recorded path in the index is used as is (with its optional
custom description); a recurring name is prefixed with the unique part
of the parent breadcrumb joined by `" > "`.
-/
def generateDescription (name : String) (sectionPath : List String)
    (sectionNames : NameIndex) (description : Option String)
    (parentDescription : String) : String :=
  let formattedName := formatTitle name
  let occurrences := (lookupIndex sectionNames formattedName).getD []
  let nameWithDesc := nameWithDescOf name description
  if occurrences.length ≤ 1 then nameWithDesc
  else parentUniquePathOf parentDescription sectionPath ++ " > " ++ nameWithDesc

/-- One value of the artifact header block: booleans are written bare,
strings are written quoted. -/
inductive FmVal where
  | b (v : Bool)
  | s (v : String)
deriving Repr, DecidableEq

/-- Render one `key: value` header line as the source template does. -/
def fmEntryLine (e : String × FmVal) : String :=
  match e.2 with
  | .b v => e.1 ++ ": " ++ (if v then "true" else "false")
  | .s v => e.1 ++ ": \"" ++ v ++ "\""

/-- One written `.mdc` artifact: output path, header fields in order,
body lines, and the serialized file content. -/
structure Artifact where
  rulePath : String
  frontmatter : List (String × FmVal)
  body : List String
  fileContent : String
deriving Repr, DecidableEq

/-- Node `path.join` on the segments the source passes it: empty
segments are skipped and the rest joined with `/` (the source never
feeds it segments needing `..` normalization). -/
def jsPathJoin (parts : List String) : String :=
  String.intercalate "/" (parts.filter (fun p => p ≠ ""))

/-- Node `path.isAbsolute` for POSIX paths. -/
def jsIsAbsolute (s : String) : Bool := s.startsWith "/"

/-- The `(subsection: ...)` reference marker emitted for one child. -/
def subsectionMarker (name : String) : String :=
  "(subsection: " ++ String.mk [squote] ++ name ++ String.mk [squote] ++ ")"

/-- Serialize header block plus body, the template at the end of
`FileHandler.writeRuleForProjectType`. -/
def renderFileContent (fm : List (String × FmVal)) (content : List String) : String :=
  "---\n" ++ String.intercalate "\n" (fm.map fmEntryLine) ++ "\n---\n"
    ++ String.intercalate "\n" content

/--
The type-dependent header fields of `FileHandler.writeRuleForProjectType`:
the ownership tag `ai-rules-project` always comes first, then the switch
on the effective type. An unrecognized or null effective type adds
nothing (the switch has no default case).
-/
def frontmatterFor (sectionName : String) (effectiveConfig : CfgObj)
    (sectionPath : List String) (sectionNames : NameIndex)
    (parentDescription : String) (projectType : String) : List (String × FmVal) :=
  [("ai-rules-project", FmVal.s projectType)] ++
    (match effectiveConfig.type with
     | some "always" => [("alwaysApply", FmVal.b true)]
     | some "auto_attached" =>
       [("globs", FmVal.s ((jsOrS effectiveConfig.globs (some "")).getD "")),
        ("alwaysApply", FmVal.b false)]
     | some "agent_requested" =>
       [("description", FmVal.s (generateDescription sectionName sectionPath
          sectionNames effectiveConfig.description parentDescription)),
        ("alwaysApply", FmVal.b false)]
     | some "manual" => [("alwaysApply", FmVal.b false)]
     | _ => [])

/--
`FileHandler.writeRuleForProjectType`: compute the output path (under
`cwd` when the effective path is relative), the header block and the
body (content plus one reference marker per direct child), and serialize.
The effective path is a string whenever the defaults are (a null default
would make the source throw in `path.join`); it is read with `getD ""`
here, as is `config.basePath || ""`.
-/
def writeRuleForProjectType (sectionName : String) (sec : SectionNode)
    (effectiveConfig : CfgObj) (config : GenConfig) (sectionPath : List String)
    (sectionNames : NameIndex) (parentDescription : String)
    (projectType : String) (formattedFileName : String) (cwd : String) : Artifact :=
  let rulesPath :=
    if sectionPath.length = 0 then jsPathJoin [".cursor", "rules"]
    else jsPathJoin ([".cursor", "rules"] ++ sectionPath.map formatTitle)
  let epath := effectiveConfig.path.getD ""
  let rulePath :=
    if jsIsAbsolute epath then
      jsPathJoin [projectType, config.basePath.getD "", epath, rulesPath,
        formattedFileName ++ ".mdc"]
    else
      jsPathJoin [cwd, projectType, config.basePath.getD "", epath, rulesPath,
        formattedFileName ++ ".mdc"]
  let fm := frontmatterFor sectionName effectiveConfig sectionPath sectionNames
    parentDescription projectType
  let content := sec.content ++ sec.sections.map (fun p => subsectionMarker p.1)
  { rulePath := rulePath, frontmatter := fm, body := content,
    fileContent := renderFileContent fm content }

/--
The breadcrumb threaded into the children of a node by
`FileHandler.writeNestedRules`: for an `agent_requested` node, the
generated description stripped of a custom suffix after the last colon;
for every other node, the parent breadcrumb extended with the name.
-/
def hierarchicalPathFor (sectionName : String) (effectiveConfig : CfgObj)
    (sectionPath : List String) (sectionNames : NameIndex)
    (parentDescription : String) : String :=
  if effectiveConfig.type = some "agent_requested" then
    let currentSectionDescription := generateDescription sectionName sectionPath
      sectionNames effectiveConfig.description parentDescription
    match strLastIndexOfChar currentSectionDescription ':' with
    | some colonIndex =>
      if truthyS effectiveConfig.description then
        jsTrim (strTake currentSectionDescription colonIndex)
      else currentSectionDescription
    | none => currentSectionDescription
  else
    if parentDescription ≠ "" then parentDescription ++ " > " ++ sectionName
    else sectionName

mutual
/--
`FileHandler.writeNestedRules` as the list of artifacts it writes, in
write order: resolve the effective config, stop completely on type
`excluded`, emit one artifact per effective project type, then recurse
into the children with this node appended to the section path and the
computed breadcrumb as their parent description.
-/
def writeNestedRules (sectionName : String) (sec : SectionNode)
    (parentConfig : Option CfgObj) (config : GenConfig) (sectionPath : List String)
    (sectionNames : NameIndex) (parentDescription : String) (cwd : String) :
    List Artifact :=
  match sec with
  | .mk scfg content subs =>
    let formattedFileName := formatTitle sectionName
    let effectiveConfig := calculateEffectiveConfig scfg parentConfig config
    if effectiveConfig.type = some "excluded" then []
    else
      let hpc := hierarchicalPathFor sectionName effectiveConfig sectionPath
        sectionNames parentDescription
      let projectTypes := effectiveConfig.projectTypes.getD []
      let own := projectTypes.map (fun pt =>
        writeRuleForProjectType sectionName (.mk scfg content subs) effectiveConfig
          config sectionPath sectionNames parentDescription pt formattedFileName cwd)
      let newSectionPath :=
        if sectionPath.length = 0 then [sectionName] else sectionPath ++ [sectionName]
      own ++ writeNestedList subs effectiveConfig config newSectionPath sectionNames hpc cwd

/-- The `for` loop over `section.sections` in `writeNestedRules`. -/
def writeNestedList (subs : List (String × SectionNode)) (parentCfg : CfgObj)
    (config : GenConfig) (sectionPath : List String) (sectionNames : NameIndex)
    (parentDescription : String) (cwd : String) : List Artifact :=
  match subs with
  | [] => []
  | (n, s) :: rest =>
    writeNestedRules n s (some parentCfg) config sectionPath sectionNames
        parentDescription cwd
      ++ writeNestedList rest parentCfg config sectionPath sectionNames
        parentDescription cwd
end

/--
One rule object as built by `RuleGenerator.generateRules`
(`processSection` output, or a synthetic table-of-contents rule):
the original section plus its resolved effective config.
-/
inductive RuleNode where
  | mk (name : String) (description : Option String) (content : List String)
      (sections : List (String × RuleNode)) (config : CfgObj) (effectiveConfig : CfgObj)
deriving Repr

/-- The `name` field of a rule. -/
def RuleNode.name : RuleNode → String
  | .mk n _ _ _ _ _ => n

/-- The `content` field of a rule. -/
def RuleNode.content : RuleNode → List String
  | .mk _ _ c _ _ _ => c

/-- The `sections` field of a rule. -/
def RuleNode.sections : RuleNode → List (String × RuleNode)
  | .mk _ _ _ s _ _ => s

/-- The `effectiveConfig` field of a rule. -/
def RuleNode.effectiveConfig : RuleNode → CfgObj
  | .mk _ _ _ _ _ e => e

mutual
/-- `processSection` inside `RuleGenerator.generateRules`: resolve the
effective config top-down and rebuild the tree as rule objects. -/
def processSection (title : String) (sec : SectionNode) (parentConfig : Option CfgObj)
    (cfg : GenConfig) : RuleNode :=
  match sec with
  | .mk scfg content subs =>
    let effectiveConfig := calculateEffectiveConfig scfg parentConfig cfg
    .mk title scfg.description content (processSectionList subs effectiveConfig cfg)
      scfg effectiveConfig

/-- The `Object.entries(section.sections)` loop of `processSection`. -/
def processSectionList (subs : List (String × SectionNode)) (parentCfg : CfgObj)
    (cfg : GenConfig) : List (String × RuleNode) :=
  match subs with
  | [] => []
  | (n, s) :: rest =>
    (n, processSection n s (some parentCfg) cfg) :: processSectionList rest parentCfg cfg
end

/-- JavaScript template coercion of the nullable effective path used in
the table-of-contents grouping key (a nullish path prints as `null`). -/
def jsStrOfPath (p : Option String) : String :=
  match p with
  | some s => s
  | none => "null"

/-- Ensure a grouping key exists (`if (!map[key]) map[key] = []`). -/
def ensureKey (m : List (String × List RuleNode)) (k : String) :
    List (String × List RuleNode) :=
  match m with
  | [] => [(k, [])]
  | (k', v) :: rest => if k' = k then (k', v) :: rest else (k', v) :: ensureKey rest k

/-- Append a rule to a grouping key. -/
def pushKey (m : List (String × List RuleNode)) (k : String) (r : RuleNode) :
    List (String × List RuleNode) :=
  match m with
  | [] => []
  | (k', v) :: rest => if k' = k then (k', v ++ [r]) :: rest else (k', v) :: pushKey rest k r

mutual
/-- `collectRulesForProjectTypeAndPath` inside
`RuleGenerator.generateTableOfContents`: group every rule that is
top-level for its (project type, path) pair; a subsection whose path
differs from its parent path becomes top-level for that path. -/
def collectRulesFor (sec : RuleNode) (isTopLevel : Bool)
    (m : List (String × List RuleNode)) : List (String × List RuleNode) :=
  match sec with
  | .mk name d content subs cfg eff =>
    let p := eff.path
    let pts := eff.projectTypes.getD []
    let m1 := pts.foldl (fun acc pt =>
      let key := pt ++ ":" ++ jsStrOfPath p
      let acc1 := ensureKey acc key
      if isTopLevel then pushKey acc1 key (.mk name d content subs cfg eff) else acc1) m
    collectRulesForList p subs m1

/-- The subsection loop of `collectRulesForProjectTypeAndPath`. -/
def collectRulesForList (parentPath : Option String)
    (subs : List (String × RuleNode)) (m : List (String × List RuleNode)) :
    List (String × List RuleNode) :=
  match subs with
  | [] => m
  | (_, s) :: rest =>
    collectRulesForList parentPath rest
      (collectRulesFor s (s.effectiveConfig.path ≠ parentPath) m)
end

mutual
/-- `addSection` inside `generateTableOfContents`: one bulleted line per
node, descending only into children whose effective path equals the
split path string and whose project types contain the group tag. -/
def addSection (pathStr : String) (projectType : String) (sec : RuleNode)
    (level : Nat) (acc : List String) : List String :=
  match sec with
  | .mk name _ _ subs _ _ =>
    let acc1 := acc ++ [String.mk (List.replicate (2 * level) ' ') ++ "- " ++ name]
    addSectionList pathStr projectType subs (level + 1) acc1

/-- The child loop of `addSection`. -/
def addSectionList (pathStr : String) (projectType : String)
    (subs : List (String × RuleNode)) (level : Nat) (acc : List String) : List String :=
  match subs with
  | [] => acc
  | (_, s) :: rest =>
    let acc1 :=
      if s.effectiveConfig.path = some pathStr
          ∧ (s.effectiveConfig.projectTypes.getD []).contains projectType then
        addSection pathStr projectType s level acc
      else acc
    addSectionList pathStr projectType rest level acc1
end

/-- The synthetic rule built for one non-empty (project type, path)
group, with the two-key `config` literal and three-key `effectiveConfig`
literal of the source (absent keys are `none`). -/
def tocRuleFor (pathStr : String) (projectType : String) (content : List String) :
    RuleNode :=
  .mk "table_of_contents"
    (some ("Complete hierarchy of rules in "
      ++ (if pathStr ≠ "" then pathStr else "root") ++ " for " ++ projectType))
    content []
    { type := some "always", path := some pathStr, globs := none,
      description := none, projectTypes := none, unifySubsections := none }
    { type := some "always", path := some pathStr, globs := none,
      description := none, projectTypes := some [projectType],
      unifySubsections := none }

/-- The per-group body of `generateTableOfContents`: split the key back
into tag and path, render the outline, and keep the group only when some
rule matched. -/
def tocForGroup (key : String) (pathRules : List RuleNode) : List RuleNode :=
  let parts := key.splitOn ":"
  let projectType := parts.getD 0 ""
  let pathStr := parts.getD 1 ""
  let content := pathRules.foldl (fun acc r =>
    if r.effectiveConfig.path = some pathStr
        ∧ (r.effectiveConfig.projectTypes.getD []).contains projectType then
      addSection pathStr projectType r 0 acc
    else acc) ["# Table of Contents\n"]
  if content.length > 1 then [tocRuleFor pathStr projectType content] else []

/-- `RuleGenerator.generateTableOfContents`. -/
def generateTableOfContents (rules : List RuleNode) : List RuleNode :=
  let m := rules.foldl (fun acc r => collectRulesFor r true acc) []
  (m.map (fun g => tocForGroup g.1 g.2)).flatten

/-- `Object.assign(allSections, sections)`: upsert every top-level key of
the newly parsed document into the corpus, a later document silently
overwriting an earlier top-level section of the same title. -/
def mergeTopLevel (all new : List (String × SectionNode)) :
    List (String × SectionNode) :=
  new.foldl (fun acc p => setKey acc p.1 p.2) all

/--
`RuleGenerator.generateRules` viewed as a pure function: the hosting
shims (directory walk, frontmatter stripping) are abstracted into the
ordered list of document bodies handed to the compiler. Returns the rule
list (table-of-contents rules unshifted in front when enabled) together
with the accumulated name index.
-/
def generateRulesPure (docs : List String) (cfg : GenConfig) :
    List RuleNode × NameIndex :=
  let step := fun (acc : List (String × SectionNode) × NameIndex) (doc : String) =>
    let secs := extractSections doc
    (mergeTopLevel acc.1 secs, collectSectionNames secs [] acc.2)
  let folded := docs.foldl step ([], [])
  let rules := folded.1.map (fun p => processSection p.1 p.2 none cfg)
  let rules :=
    if cfg.createTableOfContents then generateTableOfContents rules ++ rules
    else rules
  (rules, folded.2)

mutual
/-- Rebuild the duck-typed `{config, content, sections}` object that
`writeNestedRules` receives when recursing into a rule: the extra rule
fields are never read, only `config`, `content` and `sections`. -/
def ruleToSection : RuleNode → SectionNode
  | .mk _ _ content subs cfg _ =>
    .mk cfg content (ruleListToSections subs)

/-- Children conversion for `ruleToSection`. -/
def ruleListToSections : List (String × RuleNode) → List (String × SectionNode)
  | [] => []
  | (n, r) :: rest => (n, ruleToSection r) :: ruleListToSections rest
end

/--
`FileHandler.writeRuleFiles` minus the `ai_rules.json` index dump (a
JSON serialization of the same pure `rules` value): for each rule, in
order, render it through `writeNestedRules` with its `effectiveConfig`
as the top config object (`rule.effectiveConfig || rule.config || {}`
always takes the first branch because `processSection` and the
table-of-contents builder set it on every rule).
-/
def writeRuleFiles (rules : List RuleNode) (config : GenConfig)
    (sectionNames : NameIndex) (cwd : String) : List Artifact :=
  (rules.map (fun r =>
    match r with
    | .mk name _ content subs _ eff =>
      writeNestedRules name (.mk eff content (ruleListToSections subs)) none config
        [] sectionNames "" cwd)).flatten

/-- The whole compiler pipeline, documents and configuration in,
artifact set out; the ambient working directory is an explicit input. -/
def generatePipeline (docs : List String) (cfg : GenConfig) (cwd : String) :
    List Artifact :=
  let g := generateRulesPure docs cfg
  writeRuleFiles g.1 cfg g.2 cwd

/--
One previously delivered `.mdc` file as `RuleCleanupHandler` sees it:
its absolute path, its path relative to the cleanup root, and the
`ai-rules-project` value parsed from its header (`none` when the header
lacks the key).
-/
structure PrevRule where
  filePath : String
  relativePath : String
  tagValue : Option String
deriving Repr, DecidableEq

/-- `RuleCleanupHandler.findExistingRules` on the discovered files: keep
exactly the files whose `ai-rules-project` value is truthy and contained
in the configured project types. -/
def findExistingRules (files : List PrevRule) (configuredProjectTypes : List String) :
    List PrevRule :=
  files.filter (fun f =>
    match f.tagValue with
    | some t => t ≠ "" ∧ configuredProjectTypes.contains t
    | none => false)

/-- Normalize path separators for comparison (`replace(/\\/g, '/')`). -/
def normalizeSep (s : String) : String :=
  String.mk (s.data.map (fun ch => if ch = '\\' then '/' else ch))

/-- `RuleCleanupHandler.getCurrentRulePaths`: the normalized relative
paths of the freshly generated rules (the source stores them in a `Set`;
only membership is ever consulted). -/
def getCurrentRulePaths (freshRelPaths : List String) : List String :=
  freshRelPaths.map normalizeSep

/-- `RuleCleanupHandler.cleanupOrphanedRules` as the list of files it
deletes: every existing rule with a relevant ownership tag whose
normalized relative path is absent from the fresh set. -/
def cleanupOrphanedRules (files : List PrevRule) (configuredProjectTypes : List String)
    (freshRelPaths : List String) : List PrevRule :=
  (findExistingRules files configuredProjectTypes).filter (fun r =>
    ¬ (getCurrentRulePaths freshRelPaths).contains (normalizeSep r.relativePath))

/--
C2. For every node configuration and resolved parent: the effective
`globs` is taken from the parent exactly when the node declares (in the
truthy JavaScript sense) neither `globs` nor `description`, and is the
node's own declared `globs` (or absent) otherwise; the effective
`description` is always the node's own declared `description` or
absent, never the parent's.
-/
theorem globs_description_inheritance (sectionConfig : CfgObj)
    (parentConfig : Option CfgObj) (dflt : GenConfig) :
    (truthyS sectionConfig.globs = false ∧ truthyS sectionConfig.description = false →
      (calculateEffectiveConfig sectionConfig parentConfig dflt).globs =
        jsOrS (optField parentConfig (·.globs)) none) ∧
    ((truthyS sectionConfig.globs = true ∨ truthyS sectionConfig.description = true) →
      (calculateEffectiveConfig sectionConfig parentConfig dflt).globs =
        jsOrS sectionConfig.globs none) ∧
    (calculateEffectiveConfig sectionConfig parentConfig dflt).description =
      jsOrS sectionConfig.description none := by
  refine ⟨fun h => ?_, fun h => ?_, rfl⟩
  · have e1 : jsOrS sectionConfig.globs none = none := by simp [jsOrS, h.1]
    have e2 : jsOrS sectionConfig.description none = none := by simp [jsOrS, h.2]
    show (if truthyS (jsOrS sectionConfig.globs none) = false
            ∧ truthyS (jsOrS sectionConfig.description none) = false then
          jsOrS (optField parentConfig (·.globs)) none
        else jsOrS sectionConfig.globs none) =
      jsOrS (optField parentConfig (·.globs)) none
    rw [e1, e2]
    simp [truthyS]
  · show (if truthyS (jsOrS sectionConfig.globs none) = false
            ∧ truthyS (jsOrS sectionConfig.description none) = false then
          jsOrS (optField parentConfig (·.globs)) none
        else jsOrS sectionConfig.globs none) =
      jsOrS sectionConfig.globs none
    by_cases hg : truthyS sectionConfig.globs
    · have hgt : truthyS (jsOrS sectionConfig.globs none) = true := by simp [jsOrS, hg]
      simp [hgt]
    · have hd : truthyS sectionConfig.description := by
        rcases h with h | h
        · exact absurd h hg
        · exact h
      have h2 : truthyS (jsOrS sectionConfig.description none) = true := by
        simp [jsOrS, hd]
      have hcond : ¬ (truthyS (jsOrS sectionConfig.globs none) = false
          ∧ truthyS (jsOrS sectionConfig.description none) = false) := by
        rw [h2]; simp
      rw [if_neg hcond]

/-- Witness for C2 at concrete inputs: a child declaring neither field
inherits the parent globs, a child declaring globs keeps its own, and a
child never receives the parent description. -/
theorem globs_description_inheritance_witness :
    (calculateEffectiveConfig emptyCfg
      (some { emptyCfg with globs := some "*.ts", description := some "parent doc" })
      defaultGenConfig).globs = some "*.ts" ∧
    (calculateEffectiveConfig { emptyCfg with globs := some "*.js" }
      (some { emptyCfg with globs := some "*.ts" }) defaultGenConfig).globs = some "*.js" ∧
    (calculateEffectiveConfig emptyCfg
      (some { emptyCfg with globs := some "*.ts", description := some "parent doc" })
      defaultGenConfig).description = none := by
  refine ⟨?_, ?_, ?_⟩
  · exact (globs_description_inheritance emptyCfg
      (some { emptyCfg with globs := some "*.ts", description := some "parent doc" })
      defaultGenConfig).1 (by decide)
  · exact (globs_description_inheritance { emptyCfg with globs := some "*.js" }
      (some { emptyCfg with globs := some "*.ts" }) defaultGenConfig).2.1 (Or.inl (by decide))
  · exact (globs_description_inheritance emptyCfg
      (some { emptyCfg with globs := some "*.ts", description := some "parent doc" })
      defaultGenConfig).2.2

/-- The annotation body of the C3 counterexample: it declares only
`path`, not `flattenChildren`. -/
def c3Attrs : String := " path=\"x\" "

/-- A resolved parent configuration whose effective `flattenChildren`
is true. -/
def c3Parent : CfgObj :=
  { type := some "agent_requested", path := some "", globs := none,
    description := none, projectTypes := some ["general"],
    unifySubsections := some true }

/--
C3 counterexample. The annotation ` path="x" ` does not declare
`flattenChildren` (the `unifySubsections` scan finds nothing), yet the
parsed record carries the placeholder `false` rather than absence, and
resolution against a parent whose effective `flattenChildren` is true
yields false instead of the inherited true — refuting the claim that an
undeclared `flattenChildren` always falls through to the parent.
-/
theorem flattenChildren_not_inherited_counterexample :
    scanKeyDQ "unifySubsections" c3Attrs.data = none ∧
    (parseConfigAttributes c3Attrs).unifySubsections = some false ∧
    c3Parent.unifySubsections = some true ∧
    (calculateEffectiveConfig (parseConfigAttributes c3Attrs) (some c3Parent)
      defaultGenConfig).unifySubsections = some false := by
  refine ⟨by decide, by decide, by decide, by decide⟩

/--
C3 amended. `flattenChildren` resolution as the code actually behaves:
the attribute scanner populates the field on every parsed annotation
(`false` when undeclared, a placeholder distinguishable from absence),
resolution keeps any present value — so a node carrying any annotation
never inherits `flattenChildren` — and only a node whose configuration
record lacks the field entirely (a node that never saw an annotation)
receives the parent's effective value, or false at the root.
-/
theorem flattenChildren_resolution :
    (∀ s : String, ∃ b : Bool, (parseConfigAttributes s).unifySubsections = some b) ∧
    (∀ (sectionConfig : CfgObj) (parentConfig : Option CfgObj) (dflt : GenConfig) (b : Bool),
      sectionConfig.unifySubsections = some b →
      (calculateEffectiveConfig sectionConfig parentConfig dflt).unifySubsections = some b) ∧
    (∀ (sectionConfig : CfgObj) (parentConfig : Option CfgObj) (dflt : GenConfig),
      sectionConfig.unifySubsections = none →
      (calculateEffectiveConfig sectionConfig parentConfig dflt).unifySubsections =
        some ((parentConfig.bind CfgObj.unifySubsections).getD false)) := by
  refine ⟨fun s => ⟨_, rfl⟩, fun sectionConfig parentConfig dflt b hb => ?_, 
    fun sectionConfig parentConfig dflt hb => ?_⟩
  · unfold calculateEffectiveConfig
    simp only [hb]
  · unfold calculateEffectiveConfig
    simp only [hb]
    cases parentConfig with
    | none => rfl
    | some p =>
      cases hpu : p.unifySubsections with
      | none => simp [Option.bind, hpu]
      | some b => simp [Option.bind, hpu]

/-- Witness for C3 amended: a parsed annotation that declares only
`path` resolves `flattenChildren` to false under a flattening parent,
while an annotation-free node inherits the parent value true. -/
theorem flattenChildren_resolution_witness :
    (calculateEffectiveConfig (parseConfigAttributes c3Attrs) (some c3Parent)
      defaultGenConfig).unifySubsections = some false ∧
    (calculateEffectiveConfig emptyCfg (some c3Parent)
      defaultGenConfig).unifySubsections = some true := by
  constructor
  · exact flattenChildren_resolution.2.1 (parseConfigAttributes c3Attrs)
      (some c3Parent) defaultGenConfig false (by decide)
  · exact flattenChildren_resolution.2.2 emptyCfg (some c3Parent)
      defaultGenConfig (by decide)

/--
C5. A node whose effective type resolves to `excluded` is rendered to
zero artifacts, and since `writeNestedRules` returns before the child
loop, the whole subtree produces zero artifacts regardless of the types
declared on descendants.
-/
theorem excluded_yields_no_artifacts (sectionName : String) (sec : SectionNode)
    (parentConfig : Option CfgObj) (config : GenConfig) (sectionPath : List String)
    (sectionNames : NameIndex) (parentDescription : String) (cwd : String)
    (h : (calculateEffectiveConfig sec.config parentConfig config).type = some "excluded") :
    writeNestedRules sectionName sec parentConfig config sectionPath sectionNames
      parentDescription cwd = [] := by
  cases sec with
  | mk scfg content subs =>
    have h2 : (calculateEffectiveConfig scfg parentConfig config).type = some "excluded" := h
    unfold writeNestedRules
    simp [h2]

/-- Witness for C5: a node that declares `type="excluded"` and has a
child declaring `type="always"` yields no artifact at all. -/
theorem excluded_yields_no_artifacts_witness :
    writeNestedRules "Secrets" (.mk
      { type := some "excluded", path := none, globs := none, description := none,
        projectTypes := some ["general"], unifySubsections := some false }
      ["secret body"]
      [("Child", .mk
        { type := some "always", path := none, globs := none, description := none,
          projectTypes := none, unifySubsections := some false }
        ["child body"] [])])
      none defaultGenConfig [] [] "" "/cwd" = [] :=
  excluded_yields_no_artifacts "Secrets" _ none defaultGenConfig [] [] "" "/cwd"
    (by decide)

/--
C6. The type-dependent header fields of one rendered artifact: `always`
gives `alwaysApply: true`; `auto_attached` gives the effective globs
(empty string when unset) and `alwaysApply: false` with no description
field; `agent_requested` gives the disambiguated description and
`alwaysApply: false`; `manual` gives only `alwaysApply: false`. The
ownership tag `ai-rules-project` leads every header.
-/
theorem header_fields_by_type (sectionName : String) (sec : SectionNode)
    (effectiveConfig : CfgObj) (config : GenConfig) (sectionPath : List String)
    (sectionNames : NameIndex) (parentDescription : String) (projectType : String)
    (formattedFileName : String) (cwd : String) :
    (effectiveConfig.type = some "always" →
      (writeRuleForProjectType sectionName sec effectiveConfig config sectionPath
        sectionNames parentDescription projectType formattedFileName cwd).frontmatter =
      [("ai-rules-project", .s projectType), ("alwaysApply", .b true)]) ∧
    (effectiveConfig.type = some "auto_attached" →
      (writeRuleForProjectType sectionName sec effectiveConfig config sectionPath
        sectionNames parentDescription projectType formattedFileName cwd).frontmatter =
      [("ai-rules-project", .s projectType),
       ("globs", .s (effectiveConfig.globs.getD "")),
       ("alwaysApply", .b false)]) ∧
    (effectiveConfig.type = some "agent_requested" →
      (writeRuleForProjectType sectionName sec effectiveConfig config sectionPath
        sectionNames parentDescription projectType formattedFileName cwd).frontmatter =
      [("ai-rules-project", .s projectType),
       ("description", .s (generateDescription sectionName sectionPath sectionNames
          effectiveConfig.description parentDescription)),
       ("alwaysApply", .b false)]) ∧
    (effectiveConfig.type = some "manual" →
      (writeRuleForProjectType sectionName sec effectiveConfig config sectionPath
        sectionNames parentDescription projectType formattedFileName cwd).frontmatter =
      [("ai-rules-project", .s projectType), ("alwaysApply", .b false)]) := by
  have hg : (jsOrS effectiveConfig.globs (some "")).getD "" = effectiveConfig.globs.getD "" := by
    cases hgv : effectiveConfig.globs with
    | none => simp [jsOrS, truthyS]
    | some g =>
      by_cases hge : g = ""
      · simp [jsOrS, truthyS, hge]
      · simp [jsOrS, truthyS, hge]
  refine ⟨fun h => ?_, fun h => ?_, fun h => ?_, fun h => ?_⟩ <;>
    simp [writeRuleForProjectType, frontmatterFor, h, hg]

/-- Witness for C6 at a concrete auto-attached configuration: exactly
the tag, globs and `alwaysApply: false`, no description field. -/
theorem header_fields_by_type_witness :
    (writeRuleForProjectType "S" (.mk emptyCfg [] [])
      { type := some "auto_attached", path := some "", globs := some "*.ts",
        description := none, projectTypes := some ["web"],
        unifySubsections := some false }
      defaultGenConfig [] [] "" "web" "s" "/cwd").frontmatter =
    [("ai-rules-project", .s "web"), ("globs", .s "*.ts"), ("alwaysApply", .b false)] :=
  (header_fields_by_type "S" (.mk emptyCfg [] [])
    { type := some "auto_attached", path := some "", globs := some "*.ts",
      description := none, projectTypes := some ["web"],
      unifySubsections := some false }
    defaultGenConfig [] [] "" "web" "s" "/cwd").2.1 (by decide)

/--
C7. Description generation: a node whose formatted title has at most one
recorded path in the name index gets exactly its name (with the optional
`: custom description` suffix) and no breadcrumb; a node whose formatted
title has more than one recorded path gets the unique part of the parent
breadcrumb prefixed with `" > "`.
-/
theorem description_disambiguation (name : String) (sectionPath : List String)
    (sectionNames : NameIndex) (description : Option String)
    (parentDescription : String) :
    (((lookupIndex sectionNames (formatTitle name)).getD []).length ≤ 1 →
      generateDescription name sectionPath sectionNames description parentDescription =
        nameWithDescOf name description) ∧
    (((lookupIndex sectionNames (formatTitle name)).getD []).length > 1 →
      generateDescription name sectionPath sectionNames description parentDescription =
        parentUniquePathOf parentDescription sectionPath ++ " > "
          ++ nameWithDescOf name description) := by
  constructor
  · intro h
    simp [generateDescription, h]
  · intro h
    have h2 : ¬ ((lookupIndex sectionNames (formatTitle name)).getD []).length ≤ 1 := by
      omega
    simp [generateDescription, h2]

/-- A name index carrying the name `setup` twice (two ancestor paths)
and `install` once, for the C7 witness. -/
def c7Index : NameIndex :=
  [("setup", [["Guide A"], ["Guide B"]]), ("install", [["Guide A"]])]

/-- Witness for C7: the recurring name receives its parent breadcrumb,
the unique name stays bare. -/
theorem description_disambiguation_witness :
    generateDescription "Setup" ["Guide A"] c7Index none "Guide A" =
      "Guide A > Setup" ∧
    generateDescription "Install" ["Guide A"] c7Index none "Guide A" = "Install" := by
  constructor
  · have h := (description_disambiguation "Setup" ["Guide A"] c7Index none "Guide A").2
      (by decide)
    rw [h]
    decide
  · have h := (description_disambiguation "Install" ["Guide A"] c7Index none "Guide A").1
      (by decide)
    rw [h]
    decide

/--
C8. Orphan reconciliation deletes exactly the previously delivered
artifacts whose parsed ownership tag is truthy and contained in the
configured relevant tags and whose normalized relative path is absent
from the freshly rendered set; every other artifact is untouched.
-/
theorem orphan_reconciliation (files : List PrevRule) (configured : List String)
    (fresh : List String) (r : PrevRule) :
    r ∈ cleanupOrphanedRules files configured fresh ↔
      r ∈ files ∧
      (∃ t, r.tagValue = some t ∧ t ≠ "" ∧ t ∈ configured) ∧
      normalizeSep r.relativePath ∉ (getCurrentRulePaths fresh) := by
  simp only [cleanupOrphanedRules, findExistingRules, List.mem_filter]
  constructor
  · rintro ⟨⟨hmem, htag⟩, hpath⟩
    refine ⟨hmem, ?_, ?_⟩
    · cases ht : r.tagValue with
      | none => rw [ht] at htag; exact absurd htag (by simp)
      | some t =>
        rw [ht] at htag
        simp only [decide_eq_true_eq] at htag
        exact ⟨t, rfl, htag.1, List.elem_iff.mp htag.2⟩
    · simp only [decide_eq_true_eq] at hpath
      exact fun hmem2 => hpath (List.elem_iff.mpr hmem2)
  · rintro ⟨hmem, ⟨t, ht, htne, htin⟩, hpath⟩
    refine ⟨⟨hmem, ?_⟩, ?_⟩
    · rw [ht]
      simp only [decide_eq_true_eq]
      exact ⟨htne, List.elem_iff.mpr htin⟩
    · simp only [decide_eq_true_eq]
      exact fun hc => hpath (List.elem_iff.mp hc)

/-- Witness for C8, the membership characterization at the spec example:
with relevant tags `[web]` and a fresh set containing only `A.mdc`, the
orphan `B.mdc` is deleted and `A.mdc` survives; with relevant tags
`[mobile]`, neither is deleted. -/
theorem orphan_reconciliation_witness :
    (⟨"/t/B.mdc", "B.mdc", some "web"⟩ : PrevRule) ∈
      cleanupOrphanedRules
        [⟨"/t/A.mdc", "A.mdc", some "web"⟩, ⟨"/t/B.mdc", "B.mdc", some "web"⟩]
        ["web"] ["A.mdc"] ∧
    (⟨"/t/A.mdc", "A.mdc", some "web"⟩ : PrevRule) ∉
      cleanupOrphanedRules
        [⟨"/t/A.mdc", "A.mdc", some "web"⟩, ⟨"/t/B.mdc", "B.mdc", some "web"⟩]
        ["web"] ["A.mdc"] ∧
    (⟨"/t/B.mdc", "B.mdc", some "web"⟩ : PrevRule) ∉
      cleanupOrphanedRules
        [⟨"/t/A.mdc", "A.mdc", some "web"⟩, ⟨"/t/B.mdc", "B.mdc", some "web"⟩]
        ["mobile"] ["A.mdc"] := by
  refine ⟨?_, ?_, ?_⟩
  · exact (orphan_reconciliation
      [⟨"/t/A.mdc", "A.mdc", some "web"⟩, ⟨"/t/B.mdc", "B.mdc", some "web"⟩]
      ["web"] ["A.mdc"] ⟨"/t/B.mdc", "B.mdc", some "web"⟩).mpr
      ⟨by decide, ⟨"web", rfl, by decide, by decide⟩, by decide⟩
  · intro hmem
    have h := (orphan_reconciliation
      [⟨"/t/A.mdc", "A.mdc", some "web"⟩, ⟨"/t/B.mdc", "B.mdc", some "web"⟩]
      ["web"] ["A.mdc"] ⟨"/t/A.mdc", "A.mdc", some "web"⟩).mp hmem
    exact h.2.2 (by decide)
  · intro hmem
    have h := (orphan_reconciliation
      [⟨"/t/A.mdc", "A.mdc", some "web"⟩, ⟨"/t/B.mdc", "B.mdc", some "web"⟩]
      ["mobile"] ["A.mdc"] ⟨"/t/B.mdc", "B.mdc", some "web"⟩).mp hmem
    obtain ⟨t, ht, htne, htin⟩ := h.2.1
    cases ht
    simp at htin

/--
C9. The compiler is deterministic: the whole pipeline from the ordered
document corpus, the configuration and the ambient working directory to
the artifact set is a total pure function, so two runs on the same
inputs produce identical artifact paths and byte contents.
-/
theorem pipeline_deterministic (docs1 docs2 : List String) (cfg1 cfg2 : GenConfig)
    (cwd1 cwd2 : String) (hd : docs1 = docs2) (hc : cfg1 = cfg2) (hw : cwd1 = cwd2) :
    generatePipeline docs1 cfg1 cwd1 = generatePipeline docs2 cfg2 cwd2 := by
  subst hd
  subst hc
  subst hw
  rfl

/-- Witness for C9 at a concrete one-document corpus. -/
theorem pipeline_deterministic_witness :
    generatePipeline ["# Guide\nIntro"] defaultGenConfig "/cwd" =
      generatePipeline ["# Guide\nIntro"] defaultGenConfig "/cwd" :=
  pipeline_deterministic ["# Guide\nIntro"] ["# Guide\nIntro"] defaultGenConfig
    defaultGenConfig "/cwd" "/cwd" rfl rfl rfl

/--
C10. Lines that precede the first heading of a document and are neither
`ai-rules` annotations nor headings leave the parser state untouched
(the open-path stack is still empty, so the content branch appends
nothing anywhere): the parsed tree is exactly the tree of the document
without them, so they appear in no node content and no artifact body.
-/
theorem preheading_lines_discarded (pre rest : List String)
    (h : ∀ l ∈ pre, findAiRulesStr l = none ∧ parseHeadingLine l = none) :
    extractSectionsLines (pre ++ rest) = extractSectionsLines rest := by
  unfold extractSectionsLines
  rw [List.foldl_append]
  have hfold : pre.foldl processLine initPState = initPState := by
    induction pre with
    | nil => rfl
    | cons l t ih =>
      obtain ⟨h1, h2⟩ := h l (List.mem_cons_self _ _)
      have hstep : processLine initPState l = initPState := by
        simp [processLine, h1, h2, initPState]
      rw [List.foldl_cons, hstep]
      exact ih (fun x hx => h x (List.mem_cons_of_mem _ hx))
  rw [hfold]

/-- Witness for C10: prose and a blank line ahead of the first heading
change nothing about the parsed tree. -/
theorem preheading_lines_discarded_witness :
    extractSectionsLines (["orphan prose", ""] ++ ["# Guide", "Intro"]) =
      extractSectionsLines ["# Guide", "Intro"] :=
  preheading_lines_discarded ["orphan prose", ""] ["# Guide", "Intro"]
    (by decide)

/-- The configuration-merging example of the repository README: three
annotations under one heading, declaring `type`, `path` and
`description` respectively. -/
def c1Doc : List String :=
  ["## Section",
   "<!-- ai-rules type=\"always\" " ++ arrowClose,
   "<!-- ai-rules path=\"custom/path\" " ++ arrowClose,
   "<!-- ai-rules description=\"Custom description\" " ++ arrowClose,
   "All three configurations are merged together."]

/--
C1. Evaluation of the parser at the README merging example: because
every annotation parses to a record with all keys present (null
placeholders included), the spread of a later annotation over the
stored config replaces every field. After the three annotations the
section raw config has lost `type="always"` and `path="custom/path"`
(both reset to the null placeholder) and keeps only the description of
the last annotation — the merge is whole-record replacement, not the
field-by-field merge the claim (and the README) describe.
-/
theorem annotation_merge_is_whole_record_replacement :
    (extractSectionsLines c1Doc).map (fun q => (q.1, q.2.config)) =
      [("Section",
        { type := none, path := none, globs := none,
          description := some "Custom description", projectTypes := none,
          unifySubsections := some false })] := by
  decide

/-- The annotation body declaring `flattenChildren` under the C4 parent
heading. -/
def unifyAttrs : String := " unifySubsections=\"true\" "

/-- The full annotation line for the C4 parent heading. -/
def unifyAnno : String := "<!-- ai-rules" ++ unifyAttrs ++ arrowClose

/--
Folding plain content lines (no annotation match, no heading match,
non-blank) from a state with one open root section appends them, in
order, to that section content and changes nothing else.
-/
theorem foldl_plain_lines (p : String) (cfg cc : CfgObj) (supp : Option Nat)
    (body : List String)
    (hb : ∀ l ∈ body, findAiRulesStr l = none ∧ parseHeadingLine l = none
      ∧ jsTrim l ≠ "") :
    ∀ cont : List String,
    body.foldl processLine ⟨[(p, .mk cfg cont [])], [p], cc, supp⟩ =
      ⟨[(p, .mk cfg (cont ++ body) [])], [p], cc, supp⟩ := by
  induction body with
  | nil => intro cont; simp
  | cons l rest ih =>
    intro cont
    obtain ⟨h1, h2, h3⟩ := hb l (List.mem_cons_self _ _)
    have hstep : processLine ⟨[(p, .mk cfg cont [])], [p], cc, supp⟩ l =
        ⟨[(p, .mk cfg (cont ++ [l]) [])], [p], cc, supp⟩ := by
      simp [processLine, h1, h2, h3, findUnifyAncestor, updateAt, modifyKey,
        SectionNode.config, SectionNode.content, SectionNode.sections]
    rw [List.foldl_cons, hstep,
      ih (fun x hx => hb x (List.mem_cons_of_mem _ hx)) (cont ++ [l])]
    simp

/--
C4. Flattening: a parent heading whose raw config declares
`flattenChildren` true, followed by one deeper heading and its body
lines, parses to exactly one node — the parent — whose content holds the
literal child heading line and the body lines; no child node exists
anywhere in the tree.
-/
theorem flattening_absorbs_child (p c : String) (body : List String)
    (hp1 : findAiRulesStr ("## " ++ p) = none)
    (hp2 : parseHeadingLine ("## " ++ p) = some (2, p))
    (hc1 : findAiRulesStr ("### " ++ c) = none)
    (hc2 : parseHeadingLine ("### " ++ c) = some (3, c))
    (hb : ∀ l ∈ body, findAiRulesStr l = none ∧ parseHeadingLine l = none
      ∧ jsTrim l ≠ "") :
    extractSectionsLines (["## " ++ p, unifyAnno, "### " ++ c] ++ body) =
      [(p, .mk (parseConfigAttributes unifyAttrs) (["", "### " ++ c] ++ body) [])] := by
  have hanno : findAiRulesStr unifyAnno = some unifyAttrs := by decide
  have hcfg : (parseConfigAttributes unifyAttrs).unifySubsections = some true := by
    decide
  unfold extractSectionsLines
  rw [List.cons_append, List.cons_append, List.cons_append,
    List.foldl_cons, List.foldl_cons, List.foldl_cons]
  have s1 : processLine initPState ("## " ++ p) =
      ⟨[(p, .mk emptyCfg [] [])], [p], emptyCfg, none⟩ := by
    simp [processLine, hp1, hp2, initPState, findUnifyAncestor, createAt, setKey]
  rw [s1]
  have s2 : processLine ⟨[(p, .mk emptyCfg [] [])], [p], emptyCfg, none⟩ unifyAnno =
      ⟨[(p, .mk (parseConfigAttributes unifyAttrs) [] [])], [p], emptyCfg, none⟩ := by
    simp [processLine, hanno, updateAt, modifyKey, spreadMerge,
      SectionNode.config, SectionNode.content, SectionNode.sections]
  rw [s2]
  have s3 : processLine
      ⟨[(p, .mk (parseConfigAttributes unifyAttrs) [] [])], [p], emptyCfg, none⟩
      ("### " ++ c) =
      ⟨[(p, .mk (parseConfigAttributes unifyAttrs) ["", "### " ++ c] [])], [p],
        emptyCfg, some 3⟩ := by
    simp [processLine, hc1, hc2, findUnifyAncestor, lookupKey, unifyTruthy, hcfg,
      updateAt, modifyKey, SectionNode.config, SectionNode.content,
      SectionNode.sections]
  rw [s3]
  rw [List.nil_append]
  rw [foldl_plain_lines p _ _ _ body hb (["", "### " ++ c])]

/-- Witness for C4 at a concrete document: `## Parent` with the
flattening annotation absorbs `### Child` and its body into the
`Parent` node, and no `Child` node exists. -/
theorem flattening_absorbs_child_witness :
    extractSectionsLines (["## Parent", unifyAnno, "### Child"] ++ ["Body text"]) =
      [("Parent", .mk (parseConfigAttributes unifyAttrs)
        (["", "### Child"] ++ ["Body text"]) [])] :=
  flattening_absorbs_child "Parent" "Child" ["Body text"] (by decide) (by decide)
    (by decide) (by decide) (by decide)
